import Mathlib

/-!
Verification of the object introspection and member-classification engine
of `src/object_introspector.py`.

The Python runtime is shallowly embedded: an object is a snapshot consisting
of its member-name listing (the result of `dir(obj)`), a resolution map
describing what `getattr(obj, name)` does for each name (either raise, or
produce a value), and the object's type name.  A resolved value is abstracted
by exactly the observations the source code makes on it: `inspect.ismethod`,
`inspect.isfunction`, whether `attr.__self__ is type(obj)`, whether
`isinstance(attr, staticmethod)` holds, and `type(attr).__name__`.
-/

namespace ObjectIntrospector

open List (Perm)

open scoped List

/-- Abstraction of a Python value as observed by `analyze_object_attributes`:
the five observations the source makes on a resolved attribute value. -/
structure PyValue where
  ismethod : Bool
  isfunction : Bool
  selfIsType : Bool
  isStaticmethodInst : Bool
  typeName : String
deriving DecidableEq, Repr

/-- Result of `getattr(obj, name)`: either an exception is raised, or a value
is produced. -/
inductive Resolution where
  | raises : Resolution
  | value : PyValue → Resolution
deriving DecidableEq, Repr

/-- Snapshot of a Python object: `members` is `dir(obj)` (a sorted,
duplicate-free listing in CPython, though hypotheses are kept explicit),
`resolve` is the behaviour of `getattr(obj, ·)`, and `typeName` is
`type(obj).__name__`. -/
structure PyObject where
  members : List String
  resolve : String → Resolution
  typeName : String

/-- The result dictionary built by `analyze_object_attributes`:
`data_attributes` holds `(name, type)` pairs and the three method lists
mirror the keys of the `methods` sub-dictionary in their insertion order. -/
structure Report where
  data_attributes : List (String × String)
  instance_methods : List String
  class_methods : List String
  static_methods : List String
deriving DecidableEq, Repr

/-- The empty result structure initialised at the top of
`analyze_object_attributes`. -/
def Report.empty : Report :=
  { data_attributes := [], instance_methods := [], class_methods := [],
    static_methods := [] }

/-- Embedding of `attr_name.startswith("__")`: the name's character list
begins with two underscores. -/
def startswithDunder (s : String) : Bool :=
  match s.data with
  | '_' :: '_' :: _ => true
  | _ => false

/-- One iteration of the `for attr_name in dir(obj)` loop of
`analyze_object_attributes` (source lines 44-71): skip names starting with
`__`; if `getattr` raises, append `(name, "inaccessible")` to the data
attributes; otherwise, if the value passes `ismethod` or `isfunction`,
classify it by `ismethod`, the identity of `__self__`, and the
`isinstance(attr, staticmethod)` test; otherwise record the value's runtime
type name as a data attribute. -/
def classifyStep (obj : PyObject) (result : Report) (attr_name : String) :
    Report :=
  if startswithDunder attr_name then result
  else
    match obj.resolve attr_name with
    | Resolution.raises =>
        { result with
          data_attributes := result.data_attributes ++ [(attr_name, "inaccessible")] }
    | Resolution.value attr =>
        if attr.ismethod || attr.isfunction then
          if attr.ismethod then
            if attr.selfIsType then
              { result with
                class_methods := result.class_methods ++ [attr_name] }
            else
              { result with
                instance_methods := result.instance_methods ++ [attr_name] }
          else if attr.isStaticmethodInst then
            { result with
              static_methods := result.static_methods ++ [attr_name] }
          else
            { result with
              instance_methods := result.instance_methods ++ [attr_name] }
        else
          { result with
            data_attributes := result.data_attributes ++ [(attr_name, attr.typeName)] }

/-- Lexicographic comparison of character lists by Unicode code point,
embedding Python's `<` on strings (which `list.sort` consults). -/
def pyStrLtAux : List Char → List Char → Bool
  | [], [] => false
  | [], _ :: _ => true
  | _ :: _, [] => false
  | a :: as, b :: bs =>
    if a < b then true
    else if b < a then false
    else pyStrLtAux as bs

/-- Python's `<` on strings: lexicographic by code point. -/
def pyStrLt (a b : String) : Bool := pyStrLtAux a.data b.data

/-- Python's `<=` on strings, the insertion condition of a stable sort
driven by `pyStrLt`. -/
def pyStrLe (a b : String) : Bool := !(pyStrLt b a)

/-- Propositional form of `pyStrLe`, the relation `list.sort()` sorts the
method-name lists by. -/
def leN (a b : String) : Prop := pyStrLe a b = true

/-- Ordering used by `result["data_attributes"].sort(key=lambda x: x[0])`:
compare pairs by their first component (the attribute name). -/
def byName (a b : String × String) : Prop := pyStrLe a.1 b.1 = true

instance : DecidableRel leN := fun a b =>
  inferInstanceAs (Decidable (pyStrLe a b = true))

instance : DecidableRel byName := fun a b =>
  inferInstanceAs (Decidable (pyStrLe a.1 b.1 = true))

/-- Embedding of `analyze_object_attributes` (source lines 6-80): fold the
classification step over `dir(obj)`, then sort the data attributes by name
and sort each method list.  Python's `list.sort` is a stable sort, as is
`List.insertionSort`, so the two agree as functions on lists. -/
def analyze_object_attributes (obj : PyObject) : Report :=
  let result := obj.members.foldl (classifyStep obj) Report.empty
  { data_attributes := List.insertionSort byName result.data_attributes,
    instance_methods := List.insertionSort leN result.instance_methods,
    class_methods := List.insertionSort leN result.class_methods,
    static_methods := List.insertionSort leN result.static_methods }

/-- Category that the classification branch of the loop body assigns to a
resolved member: a data attribute carrying a type label, or one of the three
method buckets.  This mirrors the branch structure of source lines 49-71. -/
inductive MemberClass where
  | dataAttr : String → MemberClass
  | instanceMethod : MemberClass
  | classMethod : MemberClass
  | staticMethod : MemberClass
deriving DecidableEq, Repr

/-- Category assigned to member `n` of `obj` by the loop body of
`analyze_object_attributes`, assuming `n` survives the dunder filter. -/
def memberClass (obj : PyObject) (n : String) : MemberClass :=
  match obj.resolve n with
  | Resolution.raises => MemberClass.dataAttr "inaccessible"
  | Resolution.value attr =>
      if attr.ismethod || attr.isfunction then
        if attr.ismethod then
          if attr.selfIsType then MemberClass.classMethod
          else MemberClass.instanceMethod
        else if attr.isStaticmethodInst then MemberClass.staticMethod
        else MemberClass.instanceMethod
      else MemberClass.dataAttr attr.typeName

/-- Type label that member `n` contributes to `data_attributes`, if any. -/
def dataEntry (obj : PyObject) (n : String) : Option String :=
  if startswithDunder n then none
  else
    match memberClass obj n with
    | MemberClass.dataAttr t => some t
    | _ => none

/-- Member `n` lands in the `instance_methods` bucket. -/
def isInstanceName (obj : PyObject) (n : String) : Bool :=
  !startswithDunder n &&
    match memberClass obj n with
    | MemberClass.instanceMethod => true
    | _ => false

/-- Member `n` lands in the `class_methods` bucket. -/
def isClassName (obj : PyObject) (n : String) : Bool :=
  !startswithDunder n &&
    match memberClass obj n with
    | MemberClass.classMethod => true
    | _ => false

/-- Member `n` lands in the `static_methods` bucket. -/
def isStaticName (obj : PyObject) (n : String) : Bool :=
  !startswithDunder n &&
    match memberClass obj n with
    | MemberClass.staticMethod => true
    | _ => false

/-- All member names recorded anywhere in a report, in category order:
data-attribute names, then the three buckets. -/
def allNames (r : Report) : List String :=
  r.data_attributes.map Prod.fst ++ r.instance_methods ++ r.class_methods ++
    r.static_methods

/-- Statement that report `r` files member `m` under category `c`. -/
def classifiedAs (r : Report) (m : String) : MemberClass → Prop
  | MemberClass.dataAttr t => (m, t) ∈ r.data_attributes
  | MemberClass.instanceMethod => m ∈ r.instance_methods
  | MemberClass.classMethod => m ∈ r.class_methods
  | MemberClass.staticMethod => m ∈ r.static_methods

/-- Invariant of the CPython runtime: a value obtained through `getattr`
that satisfies `inspect.isfunction` is a `types.FunctionType` instance and
hence never an instance of `staticmethod` (the descriptor protocol unwraps
`staticmethod` objects before `getattr` returns).  Encoded per resolution
result. -/
def staticHygiene : Resolution → Bool
  | Resolution.raises => true
  | Resolution.value attr => !(attr.isfunction && attr.isStaticmethodInst)

/-- Embedding of `str.replace('_', ' ')` as used on the bucket keys. -/
def pyReplaceUnderscore (s : String) : String :=
  String.mk (s.data.map (fun c => if c = '_' then ' ' else c))

/-- Character-level worker for `str.title()`: an alphabetic character is
uppercased after a non-alphabetic character and lowercased otherwise; other
characters pass through.  The Boolean argument records whether the previous
character was alphabetic. -/
def titleMap : Bool → List Char → List Char
  | _, [] => []
  | prevAlpha, c :: cs =>
      (if c.isAlpha then (if prevAlpha then c.toLower else c.toUpper) else c)
        :: titleMap c.isAlpha cs

/-- Embedding of `str.title()` (restricted to alphabetic casing, which is
exact for the ASCII bucket keys it is applied to). -/
def pyTitle (s : String) : String := String.mk (titleMap false s.data)

/-- One line of the data-attributes listing:
`print(f"  - {attr_name}: {attr_type}")`. -/
def dataLine (p : String × String) : String :=
  "  - " ++ p.1 ++ ": " ++ p.2 ++ "\n"

/-- One line of a method listing: `print(f"    - {method}")`. -/
def methodLine (m : String) : String := "    - " ++ m ++ "\n"

/-- Rendering of one bucket of the `methods` dictionary (source lines
112-116): nothing at all when the list is empty, otherwise a title-cased
subsection header followed by one line per method name. -/
def renderBucket (method_type : String) (methods : List String) : String :=
  if methods.isEmpty then ""
  else
    "\n  " ++ pyTitle (pyReplaceUnderscore method_type) ++ ":\n" ++
      String.join (methods.map methodLine)

/-- Text emitted by the body of `print_object_analysis` as a function of the
structured report and the subject's type name (each `print` call contributes
its text followed by a newline; the three buckets are visited in the
insertion order of the `methods` dictionary). -/
def render (analysis : Report) (typeName : String) : String :=
  "\nAnalysis of " ++ typeName ++ " object:\n" ++
    "\nData Attributes (name: type):\n" ++
    String.join (analysis.data_attributes.map dataLine) ++
    "\nMethods:\n" ++
    renderBucket "instance_methods" analysis.instance_methods ++
    renderBucket "class_methods" analysis.class_methods ++
    renderBucket "static_methods" analysis.static_methods

/-- Embedding of `print_object_analysis` (source lines 83-116): run the
analysis, then render it together with `type(obj).__name__`. -/
def print_object_analysis (obj : PyObject) : String :=
  render (analyze_object_attributes obj) obj.typeName

/-- Value observed for an instance-bound method (`inspect.ismethod` holds,
`__self__` is the instance, not the type). -/
def greetVal : PyValue :=
  { ismethod := true, isfunction := false, selfIsType := false,
    isStaticmethodInst := false, typeName := "method" }

/-- Value observed for a type-bound method (`inspect.ismethod` holds and
`__self__ is type(obj)`). -/
def makeVal : PyValue :=
  { ismethod := true, isfunction := false, selfIsType := true,
    isStaticmethodInst := false, typeName := "method" }

/-- Value observed for a plain unbound function, which is what `getattr`
yields for a member declared with `@staticmethod`: `inspect.isfunction`
holds, `inspect.ismethod` does not, and the value is not a `staticmethod`
instance because the descriptor protocol already unwrapped it. -/
def utilVal : PyValue :=
  { ismethod := false, isfunction := true, selfIsType := false,
    isStaticmethodInst := false, typeName := "function" }

/-- Value observed for an `int` data attribute. -/
def ageVal : PyValue :=
  { ismethod := false, isfunction := false, selfIsType := false,
    isStaticmethodInst := false, typeName := "int" }

/-- Value observed for a `str` data attribute. -/
def nameVal : PyValue :=
  { ismethod := false, isfunction := false, selfIsType := false,
    isStaticmethodInst := false, typeName := "str" }

/-- Sample object exercising every classification path: a `Person` instance
with dunder members, data attributes `age` and `name`, a raising descriptor
`broken`, an instance-bound method `greet`, a type-bound method `make`, and
a plain function `util`. -/
def sampleObj : PyObject :=
  { members := ["__class__", "__init__", "age", "broken", "greet", "make",
                "name", "util"],
    resolve := fun n =>
      if n = "age" then Resolution.value ageVal
      else if n = "broken" then Resolution.raises
      else if n = "greet" then Resolution.value greetVal
      else if n = "make" then Resolution.value makeVal
      else if n = "name" then Resolution.value nameVal
      else if n = "util" then Resolution.value utilVal
      else Resolution.raises,
    typeName := "Person" }

/-- Same snapshot as `sampleObj` but with the member listing reversed: the
classification result must coincide since the output lists are sorted. -/
def sampleObjRev : PyObject :=
  { members := ["util", "name", "make", "greet", "broken", "age",
                "__init__", "__class__"],
    resolve := sampleObj.resolve,
    typeName := "Person" }

/-- Snapshot with the same member listing as `sampleObj` and a resolution
map that agrees with it on every listed member but differs on unlisted
names (unlisted lookups produce a value instead of raising). -/
def sampleObjB : PyObject :=
  { members := ["__class__", "__init__", "age", "broken", "greet", "make",
                "name", "util"],
    resolve := fun n =>
      if n = "age" then Resolution.value ageVal
      else if n = "broken" then Resolution.raises
      else if n = "greet" then Resolution.value greetVal
      else if n = "make" then Resolution.value makeVal
      else if n = "name" then Resolution.value nameVal
      else if n = "util" then Resolution.value utilVal
      else if n = "__class__" then Resolution.raises
      else if n = "__init__" then Resolution.raises
      else Resolution.value ageVal,
    typeName := "Person" }

/-- Minimal object for the binding-classification scenario of the spec: one
instance-bound callable `greet`, one type-bound callable `make`, and one
unbound callable `util`. -/
def bindingObj : PyObject :=
  { members := ["greet", "make", "util"],
    resolve := fun n =>
      if n = "greet" then Resolution.value greetVal
      else if n = "make" then Resolution.value makeVal
      else if n = "util" then Resolution.value utilVal
      else Resolution.raises,
    typeName := "Widget" }

/-- The code-point comparison coincides with the lexicographic `Lex` order
on character lists. -/
lemma pyStrLtAux_iff_lex :
    ∀ as bs : List Char, pyStrLtAux as bs = true ↔ List.Lex (· < ·) as bs
  | [], [] => by
    simp only [pyStrLtAux]
    exact iff_of_false (by simp) (by intro h; cases h)
  | [], _ :: _ => by
    simp only [pyStrLtAux]
    exact iff_of_true trivial List.Lex.nil
  | _ :: _, [] => by
    simp only [pyStrLtAux]
    exact iff_of_false (by simp) (by intro h; cases h)
  | a :: as, b :: bs => by
    simp only [pyStrLtAux]
    by_cases hab : a < b
    · simp only [if_pos hab]
      exact iff_of_true trivial (List.Lex.rel hab)
    · simp only [if_neg hab]
      by_cases hba : b < a
      · simp only [if_pos hba]
        refine iff_of_false (by simp) ?hno
        intro h
        cases h with
        | cons h => exact hba.false
        | rel h => exact hab h
      · simp only [if_neg hba]
        have heq : a = b := le_antisymm (not_lt.mp hba) (not_lt.mp hab)
        subst heq
        rw [pyStrLtAux_iff_lex as bs]
        constructor
        · exact List.Lex.cons
        · intro h
          cases h with
          | cons h => exact h
          | rel h => exact absurd h hab

/-- The embedded Python `<` on strings is the standard strict lexicographic
order on `String`. -/
lemma pyStrLt_iff (a b : String) : pyStrLt a b = true ↔ a < b := by
  rw [String.lt_iff_toList_lt]
  exact pyStrLtAux_iff_lex a.data b.data

/-- The embedded Python `<=` on strings is the standard order on `String`. -/
lemma pyStrLe_iff (a b : String) : pyStrLe a b = true ↔ a ≤ b := by
  simp only [pyStrLe, Bool.not_eq_true', Bool.eq_false_iff, Ne, pyStrLt_iff]
  exact not_lt

instance : IsTotal String leN :=
  ⟨fun a b => by
    simp only [leN, pyStrLe_iff]
    exact le_total a b⟩

instance : IsTrans String leN :=
  ⟨fun a b c h1 h2 => by
    simp only [leN, pyStrLe_iff] at h1 h2 ⊢
    exact le_trans h1 h2⟩

instance : IsTotal (String × String) byName :=
  ⟨fun a b => by
    simp only [byName, pyStrLe_iff]
    exact le_total a.1 b.1⟩

instance : IsTrans (String × String) byName :=
  ⟨fun a b c h1 h2 => by
    simp only [byName, pyStrLe_iff] at h1 h2 ⊢
    exact le_trans h1 h2⟩

/-- Closed form of the classification loop: folding `classifyStep` over a
name list appends, to each field of the accumulator, exactly the eligible
names that the loop body files under that field, in traversal order. -/
lemma foldl_classifyStep (obj : PyObject) :
    ∀ (l : List String) (acc : Report),
      l.foldl (classifyStep obj) acc =
        { data_attributes :=
            acc.data_attributes ++
              l.filterMap (fun n => (dataEntry obj n).map (fun t => (n, t))),
          instance_methods := acc.instance_methods ++ l.filter (isInstanceName obj),
          class_methods := acc.class_methods ++ l.filter (isClassName obj),
          static_methods := acc.static_methods ++ l.filter (isStaticName obj) }
  | [], acc => by simp
  | n :: l, acc => by
    rw [List.foldl_cons, foldl_classifyStep obj l (classifyStep obj acc n)]
    by_cases hd : startswithDunder n
    · simp [classifyStep, dataEntry, isInstanceName, isClassName, isStaticName,
        hd, List.filterMap_cons, List.filter_cons]
    · rcases hres : obj.resolve n with _ | ⟨im, fn, st, sm, tn⟩
      · simp [classifyStep, memberClass, dataEntry, isInstanceName, isClassName,
          isStaticName, hd, hres, List.filterMap_cons, List.filter_cons,
          List.append_assoc]
      · cases im <;> cases fn <;> cases st <;> cases sm <;>
          simp [classifyStep, memberClass, dataEntry, isInstanceName,
            isClassName, isStaticName, hd, hres, List.filterMap_cons,
            List.filter_cons, List.append_assoc]

/-- The assembled report, in closed form: each output list is the stable
sort of the corresponding selection from the member listing. -/
lemma analyze_eq (obj : PyObject) :
    analyze_object_attributes obj =
      { data_attributes :=
          List.insertionSort byName
            (obj.members.filterMap (fun n => (dataEntry obj n).map (fun t => (n, t)))),
        instance_methods :=
          List.insertionSort leN (obj.members.filter (isInstanceName obj)),
        class_methods :=
          List.insertionSort leN (obj.members.filter (isClassName obj)),
        static_methods :=
          List.insertionSort leN (obj.members.filter (isStaticName obj)) } := by
  unfold analyze_object_attributes
  rw [foldl_classifyStep]
  rfl

/-- Membership in the output data attributes, characterised. -/
lemma mem_data_iff (obj : PyObject) (n t : String) :
    (n, t) ∈ (analyze_object_attributes obj).data_attributes ↔
      n ∈ obj.members ∧ dataEntry obj n = some t := by
  rw [analyze_eq]
  rw [(List.perm_insertionSort byName _).mem_iff]
  simp only [List.mem_filterMap, Option.map_eq_some', Prod.mk.injEq]
  constructor
  · rintro ⟨m, hm, t', ht', rfl, rfl⟩
    exact ⟨hm, ht'⟩
  · rintro ⟨hm, ht⟩
    exact ⟨n, hm, t, ht, rfl, rfl⟩

/-- Membership in the output instance bucket, characterised. -/
lemma mem_instance_iff (obj : PyObject) (n : String) :
    n ∈ (analyze_object_attributes obj).instance_methods ↔
      n ∈ obj.members ∧ isInstanceName obj n = true := by
  rw [analyze_eq]
  rw [(List.perm_insertionSort leN _).mem_iff]
  simp [List.mem_filter]

/-- Membership in the output class bucket, characterised. -/
lemma mem_class_iff (obj : PyObject) (n : String) :
    n ∈ (analyze_object_attributes obj).class_methods ↔
      n ∈ obj.members ∧ isClassName obj n = true := by
  rw [analyze_eq]
  rw [(List.perm_insertionSort leN _).mem_iff]
  simp [List.mem_filter]

/-- Membership in the output static bucket, characterised. -/
lemma mem_static_iff (obj : PyObject) (n : String) :
    n ∈ (analyze_object_attributes obj).static_methods ↔
      n ∈ obj.members ∧ isStaticName obj n = true := by
  rw [analyze_eq]
  rw [(List.perm_insertionSort leN _).mem_iff]
  simp [List.mem_filter]

/-- Names of the selected data attributes are the members selected by
`dataEntry`. -/
lemma map_fst_filterMap (obj : PyObject) (l : List String) :
    (l.filterMap (fun n => (dataEntry obj n).map (fun t => (n, t)))).map Prod.fst
      = l.filter (fun n => (dataEntry obj n).isSome) := by
  induction l with
  | nil => rfl
  | cons n l ih =>
    cases h : dataEntry obj n <;>
      simp [List.filterMap_cons, List.filter_cons, h, ih]

/-- Inserting an element in the middle of a concatenation is, up to
permutation, consing it onto the front. -/
lemma perm_cons_mid {α : Type} (n : α) (X Y E : List α) (h : X ++ Y ~ E) :
    X ++ (n :: Y) ~ n :: E :=
  List.perm_middle.trans (h.cons n)

/-- For each name, the four selection predicates of the classification are
mutually exclusive and their union is the dunder filter: concatenating the
four selections permutes the list of eligible member names. -/
lemma filter_partition (obj : PyObject) (l : List String) :
    (l.filter fun n => (dataEntry obj n).isSome) ++ l.filter (isInstanceName obj)
        ++ l.filter (isClassName obj) ++ l.filter (isStaticName obj)
      ~ l.filter (fun n => !startswithDunder n) := by
  induction l with
  | nil => rfl
  | cons n l ih =>
    by_cases hd : startswithDunder n
    · simpa [List.filter_cons, dataEntry, isInstanceName, isClassName,
        isStaticName, hd] using ih
    · rcases hcls : memberClass obj n with t | _ | _ | _
      · simpa [List.filter_cons, dataEntry, isInstanceName, isClassName,
          isStaticName, hd, hcls] using ih.cons n
      · simp only [List.filter_cons, dataEntry, isInstanceName, isClassName,
          isStaticName, hd, hcls, Bool.not_false, Option.isSome_none,
          Bool.true_and, if_false, if_true, Bool.false_eq_true]
        simp only [List.cons_append, List.append_assoc]
        exact perm_cons_mid n _ _ _ (by simpa [List.append_assoc] using ih)
      · simp only [List.filter_cons, dataEntry, isInstanceName, isClassName,
          isStaticName, hd, hcls, Bool.not_false, Option.isSome_none,
          Bool.true_and, if_false, if_true, Bool.false_eq_true]
        simp only [List.cons_append, List.append_assoc]
        rw [← List.append_assoc]
        exact perm_cons_mid n _ _ _ (by simpa [List.append_assoc] using ih)
      · simp only [List.filter_cons, dataEntry, isInstanceName, isClassName,
          isStaticName, hd, hcls, Bool.not_false, Option.isSome_none,
          Bool.true_and, if_false, if_true, Bool.false_eq_true]
        simp only [List.cons_append, List.append_assoc]
        rw [← List.append_assoc, ← List.append_assoc]
        exact perm_cons_mid n _ _ _ (by simpa [List.append_assoc] using ih)

/-- A list sorted by the embedded Python order is sorted by the standard
order on `String`. -/
lemma sorted_le_insertionSort (l : List String) :
    (List.insertionSort leN l).Sorted (· ≤ ·) :=
  (List.sorted_insertionSort leN l).imp (fun h => (pyStrLe_iff _ _).mp h)

/-- Sorting a duplicate-free list by the embedded Python order yields a
strictly ascending list. -/
lemma sorted_lt_insertionSort (l : List String) (hnd : l.Nodup) :
    (List.insertionSort leN l).Sorted (· < ·) :=
  (sorted_le_insertionSort l).lt_of_le
    (((List.perm_insertionSort leN l).nodup_iff).mpr hnd)

/-- Sorting pairs by name yields strictly ascending names whenever the
names are duplicate-free. -/
lemma sorted_data_insertionSort (L : List (String × String))
    (hnd : (L.map Prod.fst).Nodup) :
    ((List.insertionSort byName L).map Prod.fst).Sorted (· < ·) := by
  have hs : (List.insertionSort byName L).Sorted (fun a b => a.1 ≤ b.1) :=
    (List.sorted_insertionSort byName L).imp (fun h => (pyStrLe_iff _ _).mp h)
  have hnd2 : ((List.insertionSort byName L).map Prod.fst).Nodup :=
    (((List.perm_insertionSort byName L).map Prod.fst).nodup_iff).mpr hnd
  have hne : (List.insertionSort byName L).Pairwise (fun a b => a.1 ≠ b.1) :=
    List.pairwise_map.mp hnd2
  exact List.pairwise_map.mpr ((hs.and hne).imp (fun h => lt_of_le_of_ne h.1 h.2))

/-- C1: for every reflectable object (duplicate-free member listing, as
`dir` guarantees), the names recorded in `data_attributes` together with
the three method buckets are a permutation of the non-dunder member names,
and carry no duplicate — classification is a partition: no eligible name is
dropped, none appears in two categories. -/
theorem classify_partition (obj : PyObject) (h : obj.members.Nodup) :
    allNames (analyze_object_attributes obj) ~
        obj.members.filter (fun n => !startswithDunder n) ∧
      (allNames (analyze_object_attributes obj)).Nodup := by
  have hperm : allNames (analyze_object_attributes obj) ~
      obj.members.filter (fun n => !startswithDunder n) := by
    rw [analyze_eq]
    unfold allNames
    have p1 : (List.insertionSort byName
        (obj.members.filterMap (fun n => (dataEntry obj n).map (fun t => (n, t))))).map Prod.fst
        ~ obj.members.filter (fun n => (dataEntry obj n).isSome) := by
      have hp := (List.perm_insertionSort byName
        (obj.members.filterMap (fun n => (dataEntry obj n).map (fun t => (n, t))))).map Prod.fst
      rwa [map_fst_filterMap] at hp
    have p2 := List.perm_insertionSort leN (obj.members.filter (isInstanceName obj))
    have p3 := List.perm_insertionSort leN (obj.members.filter (isClassName obj))
    have p4 := List.perm_insertionSort leN (obj.members.filter (isStaticName obj))
    exact (((p1.append p2).append p3).append p4).trans (filter_partition obj obj.members)
  exact ⟨hperm, hperm.nodup_iff.mpr (h.filter _)⟩

/-- Witness for C1 at the sample object. -/
theorem classify_partition_witness :
    sampleObj.members.Nodup ∧
      (allNames (analyze_object_attributes sampleObj) ~
          sampleObj.members.filter (fun n => !startswithDunder n) ∧
        (allNames (analyze_object_attributes sampleObj)).Nodup) :=
  ⟨by decide, classify_partition sampleObj (by decide)⟩

/-- C2 (code bug): on the object exposing an instance-bound callable
`greet`, a type-bound callable `make`, and an unbound plain function
`util`, the engine files `greet` and `util` under `instance_methods`,
`make` under `class_methods`, and leaves `static_methods` empty.  The
`isinstance(attr, staticmethod)` test is only reached after
`inspect.isfunction(attr)` succeeded, and a plain function is never a
`staticmethod` instance, so `util` lands in the instance bucket instead of
the static bucket the specification assigns it. -/
theorem util_filed_as_instance_method :
    analyze_object_attributes bindingObj =
      { data_attributes := [],
        instance_methods := ["greet", "util"],
        class_methods := ["make"],
        static_methods := [] } := by decide

/-- C3: a member whose resolution raises is recorded as
`(name, "inaccessible")` among the data attributes, and every other
eligible member is still classified exactly as the loop body dictates; the
embedding is a total function, so no exception escapes the call. -/
theorem classify_resilient (obj : PyObject) (n : String)
    (hmem : n ∈ obj.members) (hd : startswithDunder n = false)
    (hres : obj.resolve n = Resolution.raises) :
    (n, "inaccessible") ∈ (analyze_object_attributes obj).data_attributes ∧
      ∀ m ∈ obj.members, startswithDunder m = false →
        classifiedAs (analyze_object_attributes obj) m (memberClass obj m) := by
  constructor
  · exact (mem_data_iff obj n _).mpr
      ⟨hmem, by simp [dataEntry, memberClass, hd, hres]⟩
  · intro m hm hdm
    rcases hcls : memberClass obj m with t | _ | _ | _
    · exact (mem_data_iff obj m t).mpr ⟨hm, by simp [dataEntry, hdm, hcls]⟩
    · exact (mem_instance_iff obj m).mpr
        ⟨hm, by simp [isInstanceName, hdm, hcls]⟩
    · exact (mem_class_iff obj m).mpr ⟨hm, by simp [isClassName, hdm, hcls]⟩
    · exact (mem_static_iff obj m).mpr ⟨hm, by simp [isStaticName, hdm, hcls]⟩

/-- Witness for C3 at the sample object's raising descriptor `broken`. -/
theorem classify_resilient_witness :
    "broken" ∈ sampleObj.members ∧ startswithDunder "broken" = false ∧
      sampleObj.resolve "broken" = Resolution.raises ∧
      (("broken", "inaccessible") ∈
          (analyze_object_attributes sampleObj).data_attributes ∧
        ∀ m ∈ sampleObj.members, startswithDunder m = false →
          classifiedAs (analyze_object_attributes sampleObj) m
            (memberClass sampleObj m)) :=
  ⟨by decide, by decide, by decide,
    classify_resilient sampleObj "broken" (by decide) (by decide) (by decide)⟩

/-- C4: a successfully resolved member that passes the callability test is
filed in one of the three method buckets and never among the data
attributes; a successfully resolved non-callable member is filed among the
data attributes with its runtime type name and never in a method bucket. -/
theorem callable_noncallable_split (obj : PyObject) (n : String)
    (attr : PyValue) (hmem : n ∈ obj.members)
    (hd : startswithDunder n = false)
    (hres : obj.resolve n = Resolution.value attr) :
    ((attr.ismethod || attr.isfunction) = true →
        (n ∈ (analyze_object_attributes obj).instance_methods ∨
          n ∈ (analyze_object_attributes obj).class_methods ∨
          n ∈ (analyze_object_attributes obj).static_methods) ∧
        ∀ t, (n, t) ∉ (analyze_object_attributes obj).data_attributes) ∧
      ((attr.ismethod || attr.isfunction) = false →
        (n, attr.typeName) ∈ (analyze_object_attributes obj).data_attributes ∧
        n ∉ (analyze_object_attributes obj).instance_methods ∧
        n ∉ (analyze_object_attributes obj).class_methods ∧
        n ∉ (analyze_object_attributes obj).static_methods) := by
  obtain ⟨im, fn, st, sm, tn⟩ := attr
  simp only [mem_data_iff, mem_instance_iff, mem_class_iff, mem_static_iff]
  cases im <;> cases fn <;> cases st <;> cases sm <;>
    simp [dataEntry, isInstanceName, isClassName, isStaticName, memberClass,
      hd, hres, hmem]

/-- Witness for C4 at the sample object's `int` attribute `age`. -/
theorem callable_noncallable_split_witness :
    "age" ∈ sampleObj.members ∧ startswithDunder "age" = false ∧
      sampleObj.resolve "age" = Resolution.value ageVal ∧
      (((ageVal.ismethod || ageVal.isfunction) = true →
          ("age" ∈ (analyze_object_attributes sampleObj).instance_methods ∨
            "age" ∈ (analyze_object_attributes sampleObj).class_methods ∨
            "age" ∈ (analyze_object_attributes sampleObj).static_methods) ∧
          ∀ t, ("age", t) ∉ (analyze_object_attributes sampleObj).data_attributes) ∧
        ((ageVal.ismethod || ageVal.isfunction) = false →
          ("age", ageVal.typeName) ∈
              (analyze_object_attributes sampleObj).data_attributes ∧
          "age" ∉ (analyze_object_attributes sampleObj).instance_methods ∧
          "age" ∉ (analyze_object_attributes sampleObj).class_methods ∧
          "age" ∉ (analyze_object_attributes sampleObj).static_methods)) :=
  ⟨by decide, by decide, by decide,
    callable_noncallable_split sampleObj "age" ageVal (by decide) (by decide)
      (by decide)⟩

/-- C5: for a duplicate-free member listing, the data attributes are
strictly ascending by name and each method bucket is strictly ascending. -/
theorem classify_sorted_strict (obj : PyObject) (h : obj.members.Nodup) :
    ((analyze_object_attributes obj).data_attributes.map Prod.fst).Sorted (· < ·) ∧
      (analyze_object_attributes obj).instance_methods.Sorted (· < ·) ∧
      (analyze_object_attributes obj).class_methods.Sorted (· < ·) ∧
      (analyze_object_attributes obj).static_methods.Sorted (· < ·) := by
  rw [analyze_eq]
  refine ⟨?_, ?_, ?_, ?_⟩
  · apply sorted_data_insertionSort
    rw [map_fst_filterMap]
    exact h.filter _
  · exact sorted_lt_insertionSort _ (h.filter _)
  · exact sorted_lt_insertionSort _ (h.filter _)
  · exact sorted_lt_insertionSort _ (h.filter _)

/-- Witness for C5 at the sample object. -/
theorem classify_sorted_strict_witness :
    sampleObj.members.Nodup ∧
      (((analyze_object_attributes sampleObj).data_attributes.map
          Prod.fst).Sorted (· < ·) ∧
        (analyze_object_attributes sampleObj).instance_methods.Sorted (· < ·) ∧
        (analyze_object_attributes sampleObj).class_methods.Sorted (· < ·) ∧
        (analyze_object_attributes sampleObj).static_methods.Sorted (· < ·)) :=
  ⟨by decide, classify_sorted_strict sampleObj (by decide)⟩

/-- C6: a member name in the reserved double-underscore namespace appears
nowhere in the report — neither among the data attributes nor in any
method bucket. -/
theorem dunder_excluded (obj : PyObject) (n : String)
    (hd : startswithDunder n = true) :
    (∀ t, (n, t) ∉ (analyze_object_attributes obj).data_attributes) ∧
      n ∉ (analyze_object_attributes obj).instance_methods ∧
      n ∉ (analyze_object_attributes obj).class_methods ∧
      n ∉ (analyze_object_attributes obj).static_methods := by
  simp [mem_data_iff, mem_instance_iff, mem_class_iff, mem_static_iff,
    dataEntry, isInstanceName, isClassName, isStaticName, hd]

/-- Witness for C6 at the internal constructor hook of the sample object. -/
theorem dunder_excluded_witness :
    startswithDunder "__init__" = true ∧
      ((∀ t, ("__init__", t) ∉
          (analyze_object_attributes sampleObj).data_attributes) ∧
        "__init__" ∉ (analyze_object_attributes sampleObj).instance_methods ∧
        "__init__" ∉ (analyze_object_attributes sampleObj).class_methods ∧
        "__init__" ∉ (analyze_object_attributes sampleObj).static_methods) :=
  ⟨by decide, dunder_excluded sampleObj "__init__" (by decide)⟩

/-- C7: the classification is a pure function of the object snapshot — two
snapshots with the same member listing whose resolutions agree on every
listed member receive identical reports, so calling `classify` twice on
the same unchanged object yields identical output. -/
theorem classify_deterministic (o1 o2 : PyObject)
    (hm : o1.members = o2.members)
    (hr : ∀ n ∈ o1.members, o1.resolve n = o2.resolve n) :
    analyze_object_attributes o1 = analyze_object_attributes o2 := by
  have hcls : ∀ n ∈ o1.members, memberClass o1 n = memberClass o2 n := by
    intro n hn
    unfold memberClass
    rw [hr n hn]
  rw [analyze_eq, analyze_eq, ← hm]
  congr 1
  · apply congrArg
    apply List.filterMap_congr
    intro n hn
    unfold dataEntry
    rw [hcls n hn]
  · apply congrArg
    apply List.filter_congr
    intro n hn
    unfold isInstanceName
    rw [hcls n hn]
  · apply congrArg
    apply List.filter_congr
    intro n hn
    unfold isClassName
    rw [hcls n hn]
  · apply congrArg
    apply List.filter_congr
    intro n hn
    unfold isStaticName
    rw [hcls n hn]

/-- Witness for C7: two snapshots of the sample object whose resolution
maps agree on every member (but differ on unlisted names) get the same
report. -/
theorem classify_deterministic_witness :
    sampleObj.members = sampleObjB.members ∧
      (∀ n ∈ sampleObj.members, sampleObj.resolve n = sampleObjB.resolve n) ∧
      analyze_object_attributes sampleObj = analyze_object_attributes sampleObjB :=
  ⟨by decide, by decide,
    classify_deterministic sampleObj sampleObjB (by decide) (by decide)⟩

/-- C8: an empty bucket contributes no output at all (no subsection
header); a non-empty bucket contributes a title-cased subsection followed
by its member lines in report order; and a report with no static methods
renders with no "Static Methods" subsection — the output collapses to the
data section plus the instance and class subsections. -/
theorem render_omits_empty_buckets (r : Report) (T : String)
    (h : r.static_methods = []) :
    (∀ label : String, renderBucket label [] = "") ∧
      (∀ (label : String) (ms : List String), ms ≠ [] →
        renderBucket label ms =
          "\n  " ++ pyTitle (pyReplaceUnderscore label) ++ ":\n" ++
            String.join (ms.map methodLine)) ∧
      (∀ ms : List String, ms ≠ [] →
        renderBucket "static_methods" ms =
          "\n  Static Methods:\n" ++ String.join (ms.map methodLine)) ∧
      render r T =
        "\nAnalysis of " ++ T ++ " object:\n" ++
          "\nData Attributes (name: type):\n" ++
          String.join (r.data_attributes.map dataLine) ++
          "\nMethods:\n" ++
          renderBucket "instance_methods" r.instance_methods ++
          renderBucket "class_methods" r.class_methods := by
  have hempty : ∀ label : String, renderBucket label [] = "" := fun _ => rfl
  have hne : ∀ (label : String) (ms : List String), ms ≠ [] →
      renderBucket label ms =
        "\n  " ++ pyTitle (pyReplaceUnderscore label) ++ ":\n" ++
          String.join (ms.map methodLine) := by
    intro label ms hms
    cases ms with
    | nil => exact absurd rfl hms
    | cons a ms2 => rfl
  refine ⟨hempty, hne, ?_, ?_⟩
  · intro ms hms
    rw [hne "static_methods" ms hms]
    have htitle : pyTitle (pyReplaceUnderscore "static_methods") =
        "Static Methods" := by decide
    rw [htitle]
    have hlit : "\n  " ++ "Static Methods" ++ ":\n" = "\n  Static Methods:\n" := by
      decide
    rw [hlit]
  · unfold render
    rw [h, hempty, String.append_empty]

/-- Witness for C8 at the sample object's report, which has no static
methods. -/
theorem render_omits_empty_buckets_witness :
    (analyze_object_attributes sampleObj).static_methods = [] ∧
      ((∀ label : String, renderBucket label [] = "") ∧
        (∀ (label : String) (ms : List String), ms ≠ [] →
          renderBucket label ms =
            "\n  " ++ pyTitle (pyReplaceUnderscore label) ++ ":\n" ++
              String.join (ms.map methodLine)) ∧
        (∀ ms : List String, ms ≠ [] →
          renderBucket "static_methods" ms =
            "\n  Static Methods:\n" ++ String.join (ms.map methodLine)) ∧
        render (analyze_object_attributes sampleObj) "Person" =
          "\nAnalysis of " ++ "Person" ++ " object:\n" ++
            "\nData Attributes (name: type):\n" ++
            String.join ((analyze_object_attributes sampleObj).data_attributes.map dataLine) ++
            "\nMethods:\n" ++
            renderBucket "instance_methods"
              (analyze_object_attributes sampleObj).instance_methods ++
            renderBucket "class_methods"
              (analyze_object_attributes sampleObj).class_methods) :=
  ⟨by decide,
    render_omits_empty_buckets (analyze_object_attributes sampleObj) "Person"
      (by decide)⟩

/-- C9: the rendered text is a pure function of the structured report and
the subject's type name — objects with equal reports and equal type names
render identically, and the renderer consults nothing else. -/
theorem render_pure_of_report (o1 o2 : PyObject)
    (hrep : analyze_object_attributes o1 = analyze_object_attributes o2)
    (ht : o1.typeName = o2.typeName) :
    print_object_analysis o1 = print_object_analysis o2 := by
  unfold print_object_analysis
  rw [hrep, ht]

/-- Witness for C9: the sample object and its reversed-listing snapshot
have equal reports and type names, hence equal renderings. -/
theorem render_pure_of_report_witness :
    analyze_object_attributes sampleObj = analyze_object_attributes sampleObjRev ∧
      sampleObj.typeName = sampleObjRev.typeName ∧
      print_object_analysis sampleObj = print_object_analysis sampleObjRev :=
  ⟨by decide, by decide,
    render_pure_of_report sampleObj sampleObjRev (by decide) (by decide)⟩

/-- C10: under the CPython invariant that a resolved value passing
`inspect.isfunction` is never a `staticmethod` instance, the
`static_methods` bucket of every report is empty — the
`isinstance(attr, staticmethod)` branch of the source is unreachable. -/
theorem static_bucket_always_empty (obj : PyObject)
    (hrt : ∀ n ∈ obj.members, staticHygiene (obj.resolve n) = true) :
    (analyze_object_attributes obj).static_methods = [] := by
  rw [analyze_eq]
  have hnil : obj.members.filter (isStaticName obj) = [] := by
    rw [List.filter_eq_nil_iff]
    intro n hn
    have hh := hrt n hn
    rcases hres : obj.resolve n with _ | ⟨im, fn, st, sm, tn⟩
    · simp [isStaticName, memberClass, hres]
    · rw [hres] at hh
      cases im <;> cases fn <;> cases st <;> cases sm <;>
        simp_all [isStaticName, memberClass, staticHygiene]
  rw [hnil]
  rfl

/-- Witness for C10 at the sample object, whose every resolution respects
the invariant. -/
theorem static_bucket_always_empty_witness :
    (∀ n ∈ sampleObj.members, staticHygiene (sampleObj.resolve n) = true) ∧
      (analyze_object_attributes sampleObj).static_methods = [] :=
  ⟨by decide, static_bucket_always_empty sampleObj (by decide)⟩

end ObjectIntrospector
